import Mathlib

/-!
Shallow embedding of `src/mac_lookup/mac_lookup.py`, a command-line client
that looks up vendor information for MAC addresses via the macaddress.io
HTTP API and prints a table.

Modelling conventions: Python exceptions become `Except` errors
(`ValueError`, `SystemExit`, `AttributeError`); the HTTP layer
(`requests.get`) is an explicit oracle parameter; iteration over a Python
`set` is an arbitrary duplicate-free enumeration of the elements, supplied
as a parameter and constrained by `IsSetEnum`; string helpers (`split`,
`strip`, `upper`, `lower`) are embedded as structural recursion over the
character list, matching Python's semantics on the relevant inputs.
`get_mac_details` additionally returns a trace of observable steps
(API-key check, per-MAC validation, per-MAC HTTP query) so that claims
about ordering and about which network calls happen can be stated.
-/

namespace MacLookup

/-- Python exceptions appearing in the script: `ValueError` (raised by all
validations and by the non-200 branch of `make_request`), `SystemExit`
(raised on a `requests` transport exception), and `AttributeError` (raised
by attribute access on `None` or on a missing attribute). -/
inductive PyError where
  | valueError (msg : String)
  | systemExit (msg : String)
  | attributeError (msg : String)
  deriving Repr, DecidableEq

/-- Parsed JSON body of an API response.  The script reads only
`data.get('vendorDetails')`, which is `None` when the key is absent;
vendor-detail values are modelled as strings. -/
structure ApiBody where
  vendorDetails : Option (List (String × String))
  deriving Repr, DecidableEq

/-- Outcome of the HTTP GET inside `make_request`: a response with a status
code and parsed body, or a `requests.exceptions.RequestException`. -/
inductive HttpOutcome where
  | response (status : Nat) (body : ApiBody)
  | netError (msg : String)
  deriving Repr, DecidableEq

/-- The HTTP layer: what `requests.get` yields for a given MAC (sent as the
`search` query parameter) and API key (sent in the header). -/
def Api : Type := String → Option String → HttpOutcome

/-- Python `str.upper` on a character (ASCII range, which is all the script
feeds it). -/
def pyCharUpper (c : Char) : Char :=
  if 'a' ≤ c ∧ c ≤ 'z' then Char.ofNat (c.toNat - 32) else c

/-- Python `str.lower` on a character (ASCII range). -/
def pyCharLower (c : Char) : Char :=
  if 'A' ≤ c ∧ c ≤ 'Z' then Char.ofNat (c.toNat + 32) else c

/-- Python `str.upper` (the `type=str.upper` of the `--mac` flag). -/
def pyUpper (s : String) : String := ⟨s.data.map pyCharUpper⟩

/-- Python `str.lower` (the `k.lower()` in `MacAddressIO.__init__`). -/
def pyLower (s : String) : String := ⟨s.data.map pyCharLower⟩

/-- Python `str.strip()` whitespace test (the ASCII whitespace characters). -/
def pyIsSpace (c : Char) : Bool :=
  decide (c = ' ' ∨ c = '\t' ∨ c = '\n' ∨ c = '\r' ∨ c = '\x0b' ∨ c = '\x0c')

/-- Python `str.strip()`: drop leading and trailing whitespace. -/
def pyStrip (s : String) : String :=
  ⟨((s.data.dropWhile pyIsSpace).reverse.dropWhile pyIsSpace).reverse⟩

/-- Helper for `pySplitComma`: accumulates the current piece (reversed). -/
def splitCommaAux : List Char → List Char → List String
  | [], acc => [⟨acc.reverse⟩]
  | c :: cs, acc =>
    if c = ',' then ⟨acc.reverse⟩ :: splitCommaAux cs []
    else splitCommaAux cs (c :: acc)

/-- Python `mac_addresses.split(',')`: split at every comma, keeping empty
pieces; the result is never the empty list (`''.split(',') == ['']`). -/
def pySplitComma (s : String) : List String := splitCommaAux s.data []

/-- Result object built by `MacAddressIO.__init__`: its attribute names and
values in assignment order (`self.mac = mac` first, then one `setattr` per
item of `data`).  A later assignment to a name overrides an earlier one. -/
structure MacAddressIo where
  fields : List (String × String)
  deriving Repr, DecidableEq

/-- Python attribute read: the value of the last assignment to `name`, or
`none` when the attribute was never assigned (an `AttributeError` site). -/
def MacAddressIo.getattr (r : MacAddressIo) (name : String) : Option String :=
  r.fields.foldl (fun acc kv => if kv.1 = name then some kv.2 else acc) none

/-- Embeds `MacAddressIO.__init__`: sets `self.mac = mac`, then
`setattr(self, k.lower(), v)` for every item of `data`.  When `data` is
`None` (a 200 body without `vendorDetails`), `data.items()` raises
`AttributeError`. -/
def MacAddressIo.init (mac : String) (data : Option (List (String × String))) :
    Except PyError MacAddressIo :=
  match data with
  | none => .error (.attributeError "NoneType object has no attribute items")
  | some items => .ok ⟨("mac", mac) :: items.map (fun kv => (pyLower kv.1, kv.2))⟩

/-- Character class of the regular expression `^[0-9A-F:.]+$` used by
`validate_hex_only`. -/
def isHexDelimChar (c : Char) : Bool :=
  decide (('0' ≤ c ∧ c ≤ '9') ∨ ('A' ≤ c ∧ c ≤ 'F') ∨ c = ':' ∨ c = '.')

/-- Uppercase hexadecimal digits, a subclass of `isHexDelimChar`. -/
def isUpperHexDigit (c : Char) : Bool :=
  decide (('0' ≤ c ∧ c ≤ '9') ∨ ('A' ≤ c ∧ c ≤ 'F'))

/-- Embeds `validate_hex_only`: `re.fullmatch(r"^[0-9A-F:.]+$", mac)`
succeeds exactly when the string is non-empty and every character lies in
`[0-9A-F:.]`; otherwise a `ValueError` is raised. -/
def validate_hex_only (mac : String) : Except PyError Unit :=
  if !mac.data.isEmpty && mac.data.all isHexDelimChar then .ok ()
  else .error (.valueError
    ("MAC Address (" ++ mac ++ ") did not pass hex-only validation."))

/-- Embeds `validate_mac_length`: `len(mac) not in [12, 17]` raises
`ValueError`. -/
def validate_mac_length (mac : String) : Except PyError Unit :=
  if mac.length = 12 ∨ mac.length = 17 then .ok ()
  else .error (.valueError
    ("MAC address (" ++ mac ++ ") did not pass length validation."))

/-- Embeds `validate_mac`: runs the length check then the hex-only check,
the first raised exception propagating. -/
def validate_mac (mac : String) : Except PyError Unit :=
  match validate_mac_length mac with
  | .error e => .error e
  | .ok _ => validate_hex_only mac

/-- Embeds `__validate_api_key_exists`: `if not api_key` is true for `None`
(absent environment variable) and for the empty string. -/
def validate_api_key_exists (api_key : Option String) : Except PyError Unit :=
  match api_key with
  | none => .error (.valueError "API key was was not provided.")
  | some k =>
    if k = "" then .error (.valueError "API key was was not provided.")
    else .ok ()

/-- Embeds `make_request`: performs the GET through the oracle; on status
200 builds a `MacAddressIo` from `data.get('vendorDetails')`; on any other
status raises `ValueError` carrying the status code; a transport exception
becomes `SystemExit`. -/
def make_request (api : Api) (mac : String) (api_key : Option String) :
    Except PyError MacAddressIo :=
  match api mac api_key with
  | .response status body =>
    if status = 200 then MacAddressIo.init mac body.vendorDetails
    else .error (.valueError
      ("There was a problem gathering details for " ++ mac ++ ". Response: "
        ++ toString status))
  | .netError err => .error (.systemExit err)

/-- Observable steps of a `get_mac_details` run: the API-key check, a MAC
validation, and an HTTP query — the only network call in the script. -/
inductive Event where
  | checkApiKey
  | validateMac (mac : String)
  | query (mac : String)
  deriving Repr, DecidableEq

/-- Number of HTTP queries for the MAC string `m` in a trace. -/
def countQuery (m : String) : List Event → Nat
  | [] => 0
  | Event.query s :: tr => (if s = m then 1 else 0) + countQuery m tr
  | _ :: tr => countQuery m tr

/-- Number of pieces of a list that strip to the MAC string `m`. -/
def countMatching (m : String) : List String → Nat
  | [] => 0
  | p :: ps => (if pyStrip p = m then 1 else 0) + countMatching m ps

/-- Loop body of `get_mac_details`: for each set element in iteration
order, strip it, validate it, query it and append the result; the first
exception aborts the loop, discarding the accumulated list.  Returns the
result together with the trace of observable steps. -/
def runBatch (api : Api) (api_key : Option String) :
    List String → Except PyError (List MacAddressIo) × List Event
  | [] => (.ok [], [])
  | piece :: rest =>
    let mac := pyStrip piece
    match validate_mac mac with
    | .error e => (.error e, [.validateMac mac])
    | .ok _ =>
      match make_request api mac api_key with
      | .error e => (.error e, [.validateMac mac, .query mac])
      | .ok r =>
        let next := runBatch api api_key rest
        (next.1.map (fun l => r :: l), .validateMac mac :: .query mac :: next.2)

/-- An enumeration of Python's `set(pieces)`: duplicate-free and containing
exactly the elements of `pieces`, in an unspecified order. -/
def IsSetEnum (pieces order : List String) : Prop :=
  order.Nodup ∧ (∀ x ∈ order, x ∈ pieces) ∧ (∀ x ∈ pieces, x ∈ order)

instance (pieces order : List String) : Decidable (IsSetEnum pieces order) :=
  inferInstanceAs (Decidable (_ ∧ _ ∧ _))

/-- Helper for `pySet`: keeps the first occurrence of each element. -/
def pySetAux : List String → List String → List String
  | _, [] => []
  | seen, x :: xs =>
    if x ∈ seen then pySetAux seen xs
    else x :: pySetAux (x :: seen) xs

/-- One concrete `set` iteration order: first occurrences in input order. -/
def pySet (xs : List String) : List String := pySetAux [] xs

/-- Embeds `get_mac_details`: checks the API key, then iterates over
`set(mac_addresses.split(','))` in the order given by `setEnum`, stripping,
validating and querying each element while accumulating the results.  Also
returns the trace of observable steps. -/
def get_mac_details (api : Api) (setEnum : List String → List String)
    (mac_addresses : String) (api_key : Option String) :
    Except PyError (List MacAddressIo) × List Event :=
  match validate_api_key_exists api_key with
  | .error e => (.error e, [.checkApiKey])
  | .ok _ =>
    let next := runBatch api api_key (setEnum (pySplitComma mac_addresses))
    (next.1, .checkApiKey :: next.2)

/-- Spec-worded pipeline for the per-element phase of `lookupAll`: trim
each piece, validate it, query it, sequentially accumulating results. -/
def queryEach (api : Api) (api_key : Option String) :
    List String → Except PyError (List MacAddressIo)
  | [] => .ok []
  | piece :: rest =>
    let mac := pyStrip piece
    match validate_mac mac with
    | .error e => .error e
    | .ok _ =>
      match make_request api mac api_key with
      | .error e => .error e
      | .ok r =>
        match queryEach api api_key rest with
        | .error e => .error e
        | .ok l => .ok (r :: l)

/-- Spec-worded pipeline for `lookupAll`: require a non-empty API key,
split the input on commas, deduplicate via a set, then trim, validate and
query each element sequentially, accumulating results. -/
def lookupAllPipeline (api : Api) (setEnum : List String → List String)
    (mac_addresses : String) (api_key : Option String) :
    Except PyError (List MacAddressIo) :=
  match validate_api_key_exists api_key with
  | .error e => .error e
  | .ok _ => queryEach api api_key (setEnum (pySplitComma mac_addresses))

/-- Outcome of the `__main__` block: a printed table (one `(mac, company)`
row per result), the `No results found.` message, the `except ValueError`
handler, the `except SystemExit` handler, or an uncaught exception
(a Python traceback). -/
inductive MainOutcome where
  | table (rows : List (String × String))
  | noResults
  | valueErrorMsg (msg : String)
  | systemExitMsg (msg : String)
  | uncaught (msg : String)
  deriving Repr, DecidableEq

/-- Does the outcome go through the `except SystemExit` handler, the path
taken on a network exception? -/
def MainOutcome.isSystemExitPath : MainOutcome → Bool
  | .systemExitMsg _ => true
  | _ => false

/-- Builds the printed rows `[result.mac, result.companyname]`, one per
result; a missing attribute raises `AttributeError`. -/
def buildRows : List MacAddressIo → Except PyError (List (String × String))
  | [] => .ok []
  | r :: rs =>
    match r.getattr "mac", r.getattr "companyname" with
    | some m, some c =>
      match buildRows rs with
      | .error e => .error e
      | .ok l => .ok ((m, c) :: l)
    | _, _ => .error (.attributeError "companyname")

/-- Embeds the `__main__` block: upper-cases the `--mac` argument
(`type=str.upper`), runs `get_mac_details`, then prints the table or the
no-results message; `ValueError` and `SystemExit` are caught and printed,
any other exception propagates uncaught. -/
def mainRun (api : Api) (setEnum : List String → List String)
    (mac_arg : String) (api_key : Option String) : MainOutcome :=
  match (get_mac_details api setEnum (pyUpper mac_arg) api_key).1 with
  | .ok rs =>
    if rs.isEmpty then .noResults
    else
      match buildRows rs with
      | .ok rows => .table rows
      | .error (.valueError msg) => .valueErrorMsg msg
      | .error (.systemExit msg) => .systemExitMsg msg
      | .error (.attributeError msg) => .uncaught msg
  | .error (.valueError msg) => .valueErrorMsg msg
  | .error (.systemExit msg) => .systemExitMsg msg
  | .error (.attributeError msg) => .uncaught msg

/-- Mock API: every request gets HTTP 404 with an empty body. -/
def api404 : Api := fun _ _ => .response 404 ⟨none⟩

/-- Mock API: every request raises a transport exception. -/
def apiNetFail : Api := fun _ _ => .netError "connection refused"

/-- Mock API: every request gets HTTP 200 with
`{"vendorDetails": {"companyName": "Acme"}}`. -/
def apiAcme : Api := fun _ _ => .response 200 ⟨some [("companyName", "Acme")]⟩

/-- Mock API: every request gets HTTP 200 with a body lacking
`vendorDetails`. -/
def api200NoVendor : Api := fun _ _ => .response 200 ⟨none⟩

/-! Helper lemmas about the validations. -/

theorem validate_mac_length_ok_iff (mac : String) :
    validate_mac_length mac = .ok () ↔ (mac.length = 12 ∨ mac.length = 17) := by
  unfold validate_mac_length
  split <;> simp_all

theorem validate_hex_only_ok_iff (mac : String) :
    validate_hex_only mac = .ok () ↔
      (mac.data ≠ [] ∧ ∀ c ∈ mac.data, isHexDelimChar c = true) := by
  unfold validate_hex_only
  split <;> rename_i h <;>
    simp_all [List.all_eq_true, List.isEmpty_iff]

theorem validate_mac_ok_iff (mac : String) :
    validate_mac mac = .ok () ↔
      ((mac.length = 12 ∨ mac.length = 17) ∧
        ∀ c ∈ mac.data, isHexDelimChar c = true) := by
  have hlen : mac.length = mac.data.length := rfl
  unfold validate_mac
  cases hv : validate_mac_length mac with
  | error e =>
    have := (validate_mac_length_ok_iff mac).mpr
    constructor
    · intro h; exact absurd h (by simp)
    · intro h
      rw [this h.1] at hv
      exact absurd hv (by simp)
  | ok u =>
    have h12 := (validate_mac_length_ok_iff mac).mp (by rw [hv])
    rw [validate_hex_only_ok_iff]
    constructor
    · intro h; exact ⟨h12, h.2⟩
    · intro h
      refine ⟨?_, h.2⟩
      intro hnil
      rw [hlen, hnil] at h12
      simp at h12

theorem validate_mac_error_shape (mac : String) :
    validate_mac mac = .ok () ∨ ∃ msg, validate_mac mac = .error (.valueError msg) := by
  by_cases h1 : mac.length = 12 ∨ mac.length = 17
  · by_cases h2 : (!mac.data.isEmpty && mac.data.all isHexDelimChar) = true
    · exact Or.inl (by simp [validate_mac, validate_mac_length, validate_hex_only, h1, h2])
    · exact Or.inr ⟨"MAC Address (" ++ mac ++ ") did not pass hex-only validation.",
        by simp [validate_mac, validate_mac_length, validate_hex_only, h1, h2]⟩
  · exact Or.inr ⟨"MAC address (" ++ mac ++ ") did not pass length validation.",
      by simp [validate_mac, validate_mac_length, h1]⟩

/-! Helper lemmas about `pySet` and set enumerations. -/

theorem pySetAux_mem (y : String) :
    ∀ (xs seen : List String), y ∈ pySetAux seen xs ↔ (y ∈ xs ∧ y ∉ seen) := by
  intro xs
  induction xs with
  | nil => intro seen; simp [pySetAux]
  | cons x xs ih =>
    intro seen
    by_cases hx : x ∈ seen
    · rw [show pySetAux seen (x :: xs) = pySetAux seen xs from by simp [pySetAux, hx]]
      rw [ih]
      constructor
      · intro h; exact ⟨List.mem_cons_of_mem _ h.1, h.2⟩
      · rintro ⟨h1, h2⟩
        rcases List.mem_cons.mp h1 with h | h
        · exact absurd (h ▸ hx) h2
        · exact ⟨h, h2⟩
    · rw [show pySetAux seen (x :: xs) = x :: pySetAux (x :: seen) xs from by
        simp [pySetAux, hx]]
      constructor
      · intro hmem
        rcases List.mem_cons.mp hmem with h | h
        · exact ⟨List.mem_cons.mpr (Or.inl h), h ▸ hx⟩
        · obtain ⟨h1, h2⟩ := (ih (x :: seen)).mp h
          exact ⟨List.mem_cons.mpr (Or.inr h1), fun hs => h2 (List.mem_cons_of_mem _ hs)⟩
      · rintro ⟨h1, h2⟩
        by_cases hyx : y = x
        · exact hyx ▸ List.mem_cons_self x _
        · rcases List.mem_cons.mp h1 with h | h
          · exact absurd h hyx
          · refine List.mem_cons_of_mem _ ((ih (x :: seen)).mpr ⟨h, fun hs => ?_⟩)
            exact (List.mem_cons.mp hs).elim hyx h2

theorem pySetAux_nodup :
    ∀ (xs seen : List String), (pySetAux seen xs).Nodup := by
  intro xs
  induction xs with
  | nil => intro seen; simp [pySetAux]
  | cons x xs ih =>
    intro seen
    by_cases hx : x ∈ seen
    · rw [show pySetAux seen (x :: xs) = pySetAux seen xs from by simp [pySetAux, hx]]
      exact ih seen
    · rw [show pySetAux seen (x :: xs) = x :: pySetAux (x :: seen) xs from by
        simp [pySetAux, hx]]
      refine List.nodup_cons.mpr ⟨fun hmem => ?_, ih (x :: seen)⟩
      exact ((pySetAux_mem x xs (x :: seen)).mp hmem).2 (List.mem_cons_self x seen)

theorem pySet_isSetEnum (xs : List String) : IsSetEnum xs (pySet xs) := by
  refine ⟨pySetAux_nodup xs [], ?_, ?_⟩
  · intro y hy
    exact ((pySetAux_mem y xs []).mp hy).1
  · intro y hy
    exact (pySetAux_mem y xs []).mpr ⟨hy, List.not_mem_nil y⟩

theorem isSetEnum_singleton (x : String) (order : List String)
    (h : IsSetEnum [x] order) : order = [x] := by
  obtain ⟨hnd, hsub, hsup⟩ := h
  have hx : x ∈ order := hsup x (List.mem_singleton.mpr rfl)
  match order, hx with
  | y :: rest, _ =>
    have hy : y = x := List.mem_singleton.mp (hsub y (List.mem_cons_self y rest))
    subst hy
    match rest with
    | [] => rfl
    | z :: t =>
      have hz : z = y :=
        List.mem_singleton.mp (hsub z (List.mem_cons_of_mem _ (List.mem_cons_self z t)))
      have : y ∉ z :: t := (List.nodup_cons.mp hnd).1
      exact absurd (hz ▸ List.mem_cons_self z t) this

/-! Helper lemmas about `pySplitComma`. -/

theorem splitCommaAux_ne_nil : ∀ (cs acc : List Char), splitCommaAux cs acc ≠ [] := by
  intro cs
  induction cs with
  | nil => intro acc; simp [splitCommaAux]
  | cons c cs ih =>
    intro acc
    by_cases hc : c = ','
    · simp [splitCommaAux, hc]
    · simpa [splitCommaAux, hc] using ih (c :: acc)

theorem pySplitComma_ne_nil (s : String) : pySplitComma s ≠ [] :=
  splitCommaAux_ne_nil s.data []

/-! Helper lemmas about `runBatch` and `get_mac_details`. -/

theorem get_mac_details_keyok (api : Api) (setEnum : List String → List String)
    (s : String) (key : Option String) (hk : validate_api_key_exists key = .ok ()) :
    get_mac_details api setEnum s key =
      ((runBatch api key (setEnum (pySplitComma s))).1,
        Event.checkApiKey :: (runBatch api key (setEnum (pySplitComma s))).2) := by
  simp [get_mac_details, hk]

theorem get_mac_details_keyerr (api : Api) (setEnum : List String → List String)
    (s : String) (key : Option String) (e : PyError)
    (hk : validate_api_key_exists key = .error e) :
    get_mac_details api setEnum s key = (.error e, [.checkApiKey]) := by
  simp [get_mac_details, hk]

theorem runBatch_fst_eq_queryEach (api : Api) (key : Option String) :
    ∀ ms : List String, (runBatch api key ms).1 = queryEach api key ms := by
  intro ms
  induction ms with
  | nil => rfl
  | cons p rest ih =>
    cases hv : validate_mac (pyStrip p) with
    | error e => simp [runBatch, queryEach, hv]
    | ok u =>
      cases hm : make_request api (pyStrip p) key with
      | error e => simp [runBatch, queryEach, hv, hm]
      | ok r =>
        simp only [runBatch, queryEach, hv, hm, ← ih]
        cases hr : (runBatch api key rest).1 with
        | error e => simp [hr, Except.map]
        | ok l => simp [hr, Except.map]

theorem runBatch_ok_shape (api : Api) (key : Option String) :
    ∀ (ms : List String) (rs : List MacAddressIo),
      (runBatch api key ms).1 = .ok rs →
      rs.length = ms.length ∧
        (runBatch api key ms).2 =
          ms.flatMap (fun p => [Event.validateMac (pyStrip p), Event.query (pyStrip p)]) := by
  intro ms
  induction ms with
  | nil =>
    intro rs h
    simp only [runBatch, Except.ok.injEq] at h
    subst h
    simp [runBatch]
  | cons p rest ih =>
    intro rs h
    cases hv : validate_mac (pyStrip p) with
    | error e => simp [runBatch, hv] at h
    | ok u =>
      cases hm : make_request api (pyStrip p) key with
      | error e => simp [runBatch, hv, hm] at h
      | ok r =>
        simp only [runBatch, hv, hm] at h ⊢
        cases hr : (runBatch api key rest).1 with
        | error e => rw [hr] at h; simp [Except.map] at h
        | ok l =>
          rw [hr] at h
          simp only [Except.map, Except.ok.injEq] at h
          obtain ⟨hlen, htr⟩ := ih l hr
          subst h
          simp [hlen, htr]

theorem runBatch_count_query (api : Api) (key : Option String) (m : String) :
    ∀ ms : List String,
      countQuery m (runBatch api key ms).2 ≤ countMatching m ms := by
  intro ms
  induction ms with
  | nil => simp [runBatch, countQuery, countMatching]
  | cons p rest ih =>
    cases hv : validate_mac (pyStrip p) with
    | error e =>
      simp only [runBatch, hv, countQuery, countMatching]
      omega
    | ok u =>
      cases hm : make_request api (pyStrip p) key with
      | error e =>
        simp only [runBatch, hv, hm, countQuery, countMatching]
        omega
      | ok r =>
        simp only [runBatch, hv, hm, countQuery, countMatching]
        omega

theorem runBatch_query_validated (api : Api) (key : Option String) (m : String) :
    ∀ ms : List String,
      Event.query m ∈ (runBatch api key ms).2 → validate_mac m = .ok () := by
  intro ms
  induction ms with
  | nil => intro h; simp [runBatch] at h
  | cons p rest ih =>
    intro h
    cases hv : validate_mac (pyStrip p) with
    | error e => simp [runBatch, hv] at h
    | ok u =>
      cases u
      cases hm : make_request api (pyStrip p) key with
      | error e =>
        simp [runBatch, hv, hm] at h
        rw [h]
        exact hv
      | ok r =>
        simp [runBatch, hv, hm] at h
        rcases h with h | h
        · rw [h]; exact hv
        · exact ih h

theorem runBatch_fail_at (api : Api) (key : Option String) :
    ∀ (pre : List String) (e : String) (post : List String) (err : PyError),
      (∀ p ∈ pre, validate_mac (pyStrip p) = .ok () ∧
        ∃ r, make_request api (pyStrip p) key = .ok r) →
      validate_mac (pyStrip e) = .error err →
      (runBatch api key (pre ++ e :: post)).1 = .error err ∧
      Event.query (pyStrip e) ∉ (runBatch api key (pre ++ e :: post)).2 := by
  intro pre
  induction pre with
  | nil =>
    intro e post err _ he
    simp [runBatch, he]
  | cons p pre ih =>
    intro e post err hpre he
    obtain ⟨hv, r, hm⟩ := hpre p (List.mem_cons_self p _)
    have ihh := ih e post err (fun q hq => hpre q (List.mem_cons_of_mem _ hq)) he
    have hstep : runBatch api key ((p :: pre) ++ e :: post) =
        ((runBatch api key (pre ++ e :: post)).1.map (fun l => r :: l),
          Event.validateMac (pyStrip p) :: Event.query (pyStrip p) ::
            (runBatch api key (pre ++ e :: post)).2) := by
      rw [List.cons_append]
      simp only [runBatch, hv, hm]
    constructor
    · rw [hstep]
      show (runBatch api key (pre ++ e :: post)).1.map (fun l => r :: l) = .error err
      rw [ihh.1]
      rfl
    · rw [hstep]
      intro hmem
      rcases List.mem_cons.mp hmem with h | hmem2
      · exact absurd h (by simp)
      · rcases List.mem_cons.mp hmem2 with h | h
        · have heq : pyStrip e = pyStrip p := by injection h
          rw [heq, hv] at he
          exact absurd he (by simp)
        · exact ihh.2 h

theorem validate_api_key_exists_shape (key : Option String) :
    validate_api_key_exists key = .ok () ∨
    validate_api_key_exists key = .error (.valueError "API key was was not provided.") := by
  match key with
  | none => exact Or.inr rfl
  | some k =>
    by_cases h : k = "" <;> simp [validate_api_key_exists, h]

theorem countMatching_eq_zero (m : String) :
    ∀ l : List String, (∀ q ∈ l, pyStrip q ≠ m) → countMatching m l = 0 := by
  intro l
  induction l with
  | nil => intro _; rfl
  | cons p ps ih =>
    intro h
    simp only [countMatching, h p (List.mem_cons_self p ps), if_false,
      ih (fun q hq => h q (List.mem_cons_of_mem _ hq))]

theorem countMatching_le_one (m e : String) :
    ∀ order : List String, order.Nodup →
      (∀ p ∈ order, pyStrip p = m → p = e) → countMatching m order ≤ 1 := by
  intro order
  induction order with
  | nil => intro _ _; simp [countMatching]
  | cons p rest ih =>
    intro hnd hall
    by_cases hp : pyStrip p = m
    · have hpe : p = e := hall p (List.mem_cons_self p rest) hp
      have hrest : ∀ q ∈ rest, pyStrip q ≠ m := by
        intro q hq hqm
        have hqe : q = e := hall q (List.mem_cons_of_mem _ hq) hqm
        rw [hqe, ← hpe] at hq
        exact (List.nodup_cons.mp hnd).1 hq
      simp [countMatching, hp, countMatching_eq_zero m rest hrest]
    · simp only [countMatching, hp, if_false, Nat.zero_add]
      exact ih (List.nodup_cons.mp hnd).2
        (fun q hq => hall q (List.mem_cons_of_mem _ hq))

theorem hexDelim_not_space (c : Char) (h : isHexDelimChar c = true) :
    pyIsSpace c = false := by
  unfold isHexDelimChar at h
  unfold pyIsSpace
  rcases of_decide_eq_true h with ⟨h1, h2⟩ | ⟨h1, h2⟩ | rfl | rfl
  · apply decide_eq_false
    rintro (rfl | rfl | rfl | rfl | rfl | rfl) <;> exact absurd h1 (by decide)
  · apply decide_eq_false
    rintro (rfl | rfl | rfl | rfl | rfl | rfl) <;> exact absurd h1 (by decide)
  · decide
  · decide

theorem hexDelim_ne_comma (c : Char) (h : isHexDelimChar c = true) : c ≠ ',' := by
  unfold isHexDelimChar at h
  rcases of_decide_eq_true h with ⟨h1, h2⟩ | ⟨h1, h2⟩ | rfl | rfl
  · rintro rfl; exact absurd h1 (by decide)
  · rintro rfl; exact absurd h1 (by decide)
  · decide
  · decide

theorem dropWhile_pyIsSpace_eq_self (l : List Char)
    (h : ∀ c ∈ l, pyIsSpace c = false) : l.dropWhile pyIsSpace = l := by
  cases l with
  | nil => rfl
  | cons c cs => simp [List.dropWhile_cons, h c (List.mem_cons_self c cs)]

theorem pyStrip_eq_self (s : String) (h : ∀ c ∈ s.data, pyIsSpace c = false) :
    pyStrip s = s := by
  unfold pyStrip
  rw [dropWhile_pyIsSpace_eq_self s.data h,
    dropWhile_pyIsSpace_eq_self s.data.reverse
      (fun c hc => h c (List.mem_reverse.mp hc)),
    List.reverse_reverse]

theorem splitCommaAux_no_comma :
    ∀ (cs acc : List Char), (∀ c ∈ cs, c ≠ ',') →
      splitCommaAux cs acc = [⟨acc.reverse ++ cs⟩] := by
  intro cs
  induction cs with
  | nil =>
    intro acc _
    rw [List.append_nil]
    rfl
  | cons c cs ih =>
    intro acc h
    rw [show splitCommaAux (c :: cs) acc = splitCommaAux cs (c :: acc) from by
      simp [splitCommaAux, h c (List.mem_cons_self c cs)]]
    rw [ih (c :: acc) (fun d hd => h d (List.mem_cons_of_mem _ hd))]
    simp [List.reverse_cons, List.append_assoc]

theorem pySplitComma_single (s : String) (h : ∀ c ∈ s.data, c ≠ ',') :
    pySplitComma s = [s] := by
  unfold pySplitComma
  rw [splitCommaAux_no_comma s.data [] h]
  rfl

/-! The claims. -/

/-- C1: `validate_mac` succeeds if and only if the input has length exactly
12 or exactly 17 and every character lies in `[0-9A-F:.]`; every string
violating either condition fails with a `ValueError` (the spec's
ValidationError), and every string satisfying both succeeds. -/
theorem claim_validate_succeeds_iff (mac : String) :
    (validate_mac mac = .ok () ↔
      ((mac.length = 12 ∨ mac.length = 17) ∧
        ∀ c ∈ mac.data, isHexDelimChar c = true)) ∧
    (¬((mac.length = 12 ∨ mac.length = 17) ∧
        ∀ c ∈ mac.data, isHexDelimChar c = true) →
      ∃ msg, validate_mac mac = .error (.valueError msg)) := by
  refine ⟨validate_mac_ok_iff mac, fun h => ?_⟩
  rcases validate_mac_error_shape mac with hok | herr
  · exact absurd ((validate_mac_ok_iff mac).mp hok) h
  · exact herr

theorem claim_validate_succeeds_iff_witness :
    validate_mac "AABBCCDDEEFF" = .ok () ∧
    ∃ msg, validate_mac "AABBCCDDEEF" = .error (.valueError msg) :=
  ⟨(claim_validate_succeeds_iff "AABBCCDDEEFF").1.mpr (by decide),
   (claim_validate_succeeds_iff "AABBCCDDEEF").2 (by decide)⟩

/-- C2 (counterexample): a non-200 response is NOT surfaced through the
same path as a network exception.  With an API answering 404, `__main__`
goes through the `except ValueError` handler, while a network exception
goes through the `except SystemExit` handler. -/
theorem claim_non200_same_path_cex :
    (mainRun api404 pySet "AA:BB:CC:DD:EE:FF" (some "key")).isSystemExitPath = false ∧
    (mainRun apiNetFail pySet "AA:BB:CC:DD:EE:FF" (some "key")).isSystemExitPath = true ∧
    mainRun api404 pySet "AA:BB:CC:DD:EE:FF" (some "key") =
      .valueErrorMsg
        "There was a problem gathering details for AA:BB:CC:DD:EE:FF. Response: 404" :=
  ⟨rfl, rfl, rfl⟩

/-- C2 (amended): a non-200 HTTP response makes `make_request` raise a
`ValueError` carrying the status code; the error aborts the batch and is
surfaced through the `except ValueError` handler of `__main__` (printing
the message), which is a different handler from the `except SystemExit`
one used for network exceptions, and no table is printed. -/
theorem claim_non200_valueError_no_table (api : Api) (mac : String)
    (key : Option String) (st : Nat) (body : ApiBody)
    (hresp : api mac key = .response st body) (hst : st ≠ 200) :
    make_request api mac key = .error (.valueError
      ("There was a problem gathering details for " ++ mac ++ ". Response: "
        ++ toString st)) ∧
    (∀ (setEnum : List String → List String) (arg msg : String),
      (get_mac_details api setEnum (pyUpper arg) key).1 = .error (.valueError msg) →
      mainRun api setEnum arg key = .valueErrorMsg msg ∧
      ∀ rows, mainRun api setEnum arg key ≠ .table rows) := by
  constructor
  · simp [make_request, hresp, hst]
  · intro setEnum arg msg h
    have hmain : mainRun api setEnum arg key = .valueErrorMsg msg := by
      simp [mainRun, h]
    refine ⟨hmain, fun rows hc => ?_⟩
    rw [hmain] at hc
    exact absurd hc (by simp)

theorem claim_non200_valueError_no_table_witness :
    make_request api404 "AA:BB:CC:DD:EE:FF" (some "key") = .error (.valueError
      "There was a problem gathering details for AA:BB:CC:DD:EE:FF. Response: 404") ∧
    mainRun api404 pySet "AA:BB:CC:DD:EE:FF" (some "key") = .valueErrorMsg
      "There was a problem gathering details for AA:BB:CC:DD:EE:FF. Response: 404" := by
  have h := claim_non200_valueError_no_table api404 "AA:BB:CC:DD:EE:FF" (some "key")
    404 ⟨none⟩ rfl (by decide)
  exact ⟨h.1, (h.2 pySet "AA:BB:CC:DD:EE:FF" _ rfl).1⟩

/-- C3: for every input batch and every iteration order, the first
validation failure aborts the whole batch: `get_mac_details` returns the
error (so no results at all, not a partial list) and no HTTP query is made
for the malformed entry itself. -/
theorem claim_validation_failure_aborts_batch (api : Api)
    (setEnum : List String → List String) (arg : String) (key : Option String)
    (pre : List String) (e : String) (post : List String) (err : PyError)
    (hkey : validate_api_key_exists key = .ok ())
    (horder : setEnum (pySplitComma arg) = pre ++ e :: post)
    (hpre : ∀ p ∈ pre, validate_mac (pyStrip p) = .ok () ∧
      ∃ r, make_request api (pyStrip p) key = .ok r)
    (he : validate_mac (pyStrip e) = .error err) :
    (get_mac_details api setEnum arg key).1 = .error err ∧
    (∀ rs, (get_mac_details api setEnum arg key).1 ≠ .ok rs) ∧
    Event.query (pyStrip e) ∉ (get_mac_details api setEnum arg key).2 := by
  have hfail := runBatch_fail_at api key pre e post err hpre he
  rw [get_mac_details_keyok api setEnum arg key hkey, horder]
  refine ⟨hfail.1, ?_, ?_⟩
  · intro rs hc
    rw [show ((runBatch api key (pre ++ e :: post)).1,
        Event.checkApiKey :: (runBatch api key (pre ++ e :: post)).2).1 =
      (runBatch api key (pre ++ e :: post)).1 from rfl, hfail.1] at hc
    exact absurd hc (by simp)
  · intro hmem
    rcases List.mem_cons.mp hmem with h | h
    · exact absurd h (by simp)
    · exact hfail.2 h

theorem claim_validation_failure_aborts_batch_witness :
    (get_mac_details api404 pySet "ZZZ" (some "key")).1 =
      .error (.valueError "MAC address (ZZZ) did not pass length validation.") ∧
    Event.query "ZZZ" ∉ (get_mac_details api404 pySet "ZZZ" (some "key")).2 := by
  have h := claim_validation_failure_aborts_batch api404 pySet "ZZZ" (some "key")
    [] "ZZZ" []
    (.valueError "MAC address (ZZZ) did not pass length validation.")
    rfl rfl (by simp) rfl
  exact ⟨h.1, h.2.2⟩

/-- C4: with an absent or empty API key, `get_mac_details` fails with the
API-key `ValueError` immediately — the trace shows only the key check, so
no MAC validation and no network call happened; and with the empty input
string (any API key), it fails with a `ValueError` before any network
call. -/
theorem claim_empty_key_or_input_fails_early (api : Api)
    (setEnum : List String → List String) (arg : String) (key : Option String) :
    ((key = none ∨ key = some "") →
      (get_mac_details api setEnum arg key).1 =
        .error (.valueError "API key was was not provided.") ∧
      (get_mac_details api setEnum arg key).2 = [.checkApiKey]) ∧
    (IsSetEnum (pySplitComma "") (setEnum (pySplitComma "")) →
      (∃ msg, (get_mac_details api setEnum "" key).1 = .error (.valueError msg)) ∧
      ∀ m, Event.query m ∉ (get_mac_details api setEnum "" key).2) := by
  constructor
  · rintro (rfl | rfl)
    · rw [get_mac_details_keyerr api setEnum arg none _ rfl]
      exact ⟨rfl, rfl⟩
    · rw [get_mac_details_keyerr api setEnum arg (some "") _ rfl]
      exact ⟨rfl, rfl⟩
  · intro henum
    rcases validate_api_key_exists_shape key with hk | hk
    · have horder : setEnum (pySplitComma "") = [""] :=
        isSetEnum_singleton "" _ henum
      rw [get_mac_details_keyok api setEnum "" key hk, horder]
      refine ⟨⟨"MAC address () did not pass length validation.", rfl⟩, ?_⟩
      intro m hmem
      rcases List.mem_cons.mp hmem with h | h
      · exact absurd h (by simp)
      · rcases List.mem_cons.mp h with h2 | h2
        · exact absurd h2 (by simp)
        · exact absurd h2 (by simp)
    · rw [get_mac_details_keyerr api setEnum "" key _ hk]
      refine ⟨⟨"API key was was not provided.", rfl⟩, ?_⟩
      intro m hmem
      rcases List.mem_cons.mp hmem with h | h
      · exact absurd h (by simp)
      · exact absurd h (by simp)

theorem claim_empty_key_or_input_fails_early_witness :
    (get_mac_details api404 pySet "AA" none).1 =
      .error (.valueError "API key was was not provided.") ∧
    ∃ msg, (get_mac_details api404 pySet "" (some "key")).1 =
      .error (.valueError msg) :=
  ⟨((claim_empty_key_or_input_fails_early api404 pySet "AA" none).1 (Or.inl rfl)).1,
   ((claim_empty_key_or_input_fails_early api404 pySet "AA" (some "key")).2
      (by decide)).1⟩

/-- C5: when the input list contains the same MAC entry string more than
once, deduplication via the set guarantees that at most one HTTP query is
issued for that entry (for every API, key and iteration order). -/
theorem claim_duplicates_queried_at_most_once (api : Api)
    (setEnum : List String → List String) (arg : String) (key : Option String)
    (e : String)
    (henum : IsSetEnum (pySplitComma arg) (setEnum (pySplitComma arg)))
    (hdup : ∀ p ∈ pySplitComma arg, pyStrip p = pyStrip e → p = e) :
    countQuery (pyStrip e) (get_mac_details api setEnum arg key).2 ≤ 1 := by
  rcases validate_api_key_exists_shape key with hk | hk
  · rw [get_mac_details_keyok api setEnum arg key hk]
    have hstep : countQuery (pyStrip e)
        (Event.checkApiKey :: (runBatch api key (setEnum (pySplitComma arg))).2) =
        countQuery (pyStrip e) (runBatch api key (setEnum (pySplitComma arg))).2 := rfl
    rw [hstep]
    calc countQuery (pyStrip e) (runBatch api key (setEnum (pySplitComma arg))).2
        ≤ countMatching (pyStrip e) (setEnum (pySplitComma arg)) :=
          runBatch_count_query api key (pyStrip e) _
      _ ≤ 1 := countMatching_le_one (pyStrip e) e _ henum.1
          (fun p hp => hdup p (henum.2.1 p hp))
  · rw [get_mac_details_keyerr api setEnum arg key _ hk]
    exact Nat.le_succ 0

theorem claim_duplicates_queried_at_most_once_witness :
    countQuery "AA:BB:CC:DD:EE:FF"
      (get_mac_details apiAcme pySet "AA:BB:CC:DD:EE:FF,AA:BB:CC:DD:EE:FF"
        (some "key")).2 ≤ 1 :=
  claim_duplicates_queried_at_most_once apiAcme pySet
    "AA:BB:CC:DD:EE:FF,AA:BB:CC:DD:EE:FF" (some "key") "AA:BB:CC:DD:EE:FF"
    (by decide) (by decide)

/-- C6: `get_mac_details` processes its input by exactly the spec's
pipeline, in order: split on commas, deduplicate via a set (the arbitrary
`setEnum` order), trim each piece, validate it, and query it sequentially
while accumulating results — its result coincides with the spec-worded
`lookupAllPipeline`, and on success the trace is the API-key check followed
by validate-then-query for each set element in iteration order. -/
theorem claim_processing_pipeline (api : Api)
    (setEnum : List String → List String) (arg : String) (key : Option String) :
    (get_mac_details api setEnum arg key).1 = lookupAllPipeline api setEnum arg key ∧
    (∀ rs, (get_mac_details api setEnum arg key).1 = .ok rs →
      (get_mac_details api setEnum arg key).2 =
        .checkApiKey :: (setEnum (pySplitComma arg)).flatMap
          (fun p => [.validateMac (pyStrip p), .query (pyStrip p)])) := by
  constructor
  · rcases validate_api_key_exists_shape key with hk | hk
    · rw [get_mac_details_keyok api setEnum arg key hk]
      show (runBatch api key (setEnum (pySplitComma arg))).1 = _
      rw [runBatch_fst_eq_queryEach]
      simp [lookupAllPipeline, hk]
    · rw [get_mac_details_keyerr api setEnum arg key _ hk]
      simp [lookupAllPipeline, hk]
  · intro rs h
    rcases validate_api_key_exists_shape key with hk | hk
    · rw [get_mac_details_keyok api setEnum arg key hk] at h ⊢
      exact congrArg (Event.checkApiKey :: ·) (runBatch_ok_shape api key _ rs h).2
    · rw [get_mac_details_keyerr api setEnum arg key _ hk] at h
      exact absurd h (by simp)

theorem claim_processing_pipeline_witness :
    (get_mac_details apiAcme pySet "AA:BB:CC:DD:EE:FF" (some "key")).2 =
      [.checkApiKey, .validateMac "AA:BB:CC:DD:EE:FF", .query "AA:BB:CC:DD:EE:FF"] :=
  (claim_processing_pipeline apiAcme pySet "AA:BB:CC:DD:EE:FF" (some "key")).2
    [⟨[("mac", "AA:BB:CC:DD:EE:FF"), ("companyname", "Acme")]⟩] rfl

/-- C7: for every MAC address queried — any `mac` that passes validation
(so it is a single comma-free, whitespace-free entry) — with an API
answering HTTP 200 and body `{"vendorDetails": {"companyName": "Acme"}}`,
`get_mac_details` on that MAC returns exactly one result whose `mac`
attribute is the queried MAC and whose `companyname` attribute (the
lower-cased field name) is `Acme`; and in every constructed result object
the `mac` field is present and the remaining fields are the
`vendorDetails` keys lower-cased. -/
theorem claim_acme_lookup_result (api : Api)
    (setEnum : List String → List String) (key : Option String) (mac : String)
    (hkey : validate_api_key_exists key = .ok ())
    (hvalid : validate_mac mac = .ok ())
    (henum : IsSetEnum (pySplitComma mac) (setEnum (pySplitComma mac)))
    (hapi : api mac key = .response 200 ⟨some [("companyName", "Acme")]⟩) :
    (∃ r, (get_mac_details api setEnum mac key).1 = .ok [r] ∧
      r.getattr "mac" = some mac ∧
      r.getattr "companyname" = some "Acme") ∧
    (∀ (mac2 : String) (data : List (String × String)) (r : MacAddressIo),
      MacAddressIo.init mac2 (some data) = .ok r →
      r.fields.map Prod.fst = "mac" :: data.map (fun kv => pyLower kv.1) ∧
      "mac" ∈ r.fields.map Prod.fst) := by
  constructor
  · have hchars : ∀ c ∈ mac.data, isHexDelimChar c = true :=
      ((validate_mac_ok_iff mac).mp hvalid).2
    have hsingle : pySplitComma mac = [mac] :=
      pySplitComma_single mac (fun c hc => hexDelim_ne_comma c (hchars c hc))
    have hstrip : pyStrip mac = mac :=
      pyStrip_eq_self mac (fun c hc => hexDelim_not_space c (hchars c hc))
    have horder : setEnum (pySplitComma mac) = [mac] :=
      isSetEnum_singleton mac _ (hsingle ▸ henum)
    have hmk : make_request api mac key =
        .ok ⟨[("mac", mac), ("companyname", "Acme")]⟩ := by
      unfold make_request
      rw [hapi]
      rfl
    refine ⟨⟨[("mac", mac), ("companyname", "Acme")]⟩, ?_, rfl, rfl⟩
    rw [get_mac_details_keyok api setEnum mac key hkey, horder]
    show (runBatch api key [mac]).1 = _
    simp [runBatch, hstrip, hvalid, hmk, Except.map]
  · intro mac2 data r h
    simp only [MacAddressIo.init, Except.ok.injEq] at h
    subst h
    constructor
    · simp [List.map_map, Function.comp]
    · simp

theorem claim_acme_lookup_result_witness :
    ∃ r, (get_mac_details apiAcme pySet "AA:BB:CC:DD:EE:FF" (some "key")).1 = .ok [r] ∧
      r.getattr "mac" = some "AA:BB:CC:DD:EE:FF" ∧
      r.getattr "companyname" = some "Acme" :=
  (claim_acme_lookup_result apiAcme pySet (some "key") "AA:BB:CC:DD:EE:FF"
    rfl rfl (by decide) rfl).1

/-- C8: the batch is never empty (splitting always yields at least one
piece), so on every input where `get_mac_details` returns successfully the
result list is non-empty, and the `No results found.` branch of `__main__`
is unreachable. -/
theorem claim_success_results_nonempty (api : Api)
    (setEnum : List String → List String) (arg : String) (key : Option String)
    (henum : ∀ s : String, IsSetEnum (pySplitComma s) (setEnum (pySplitComma s))) :
    (∀ rs, (get_mac_details api setEnum arg key).1 = .ok rs → rs ≠ []) ∧
    mainRun api setEnum arg key ≠ .noResults := by
  have hA : ∀ (s : String) (rs : List MacAddressIo),
      (get_mac_details api setEnum s key).1 = .ok rs → rs ≠ [] := by
    intro s rs h hnil
    subst hnil
    rcases validate_api_key_exists_shape key with hk | hk
    · rw [get_mac_details_keyok api setEnum s key hk] at h
      have hlen := (runBatch_ok_shape api key _ _ h).1
      cases hsp : pySplitComma s with
      | nil => exact pySplitComma_ne_nil s hsp
      | cons x xs =>
        have hx : x ∈ pySplitComma s := by
          rw [hsp]; exact List.mem_cons_self x xs
        have hxo : x ∈ setEnum (pySplitComma s) := (henum s).2.2 x hx
        have hord : setEnum (pySplitComma s) = [] :=
          List.length_eq_zero.mp (by simpa using hlen.symm)
        rw [hord] at hxo
        exact List.not_mem_nil x hxo
    · rw [get_mac_details_keyerr api setEnum s key _ hk] at h
      exact absurd h (by simp)
  refine ⟨hA arg, ?_⟩
  intro hc
  cases hres : (get_mac_details api setEnum (pyUpper arg) key).1 with
  | error e =>
    cases e with
    | valueError msg =>
      rw [show mainRun api setEnum arg key = .valueErrorMsg msg from by
        simp [mainRun, hres]] at hc
      exact absurd hc (by simp)
    | systemExit msg =>
      rw [show mainRun api setEnum arg key = .systemExitMsg msg from by
        simp [mainRun, hres]] at hc
      exact absurd hc (by simp)
    | attributeError msg =>
      rw [show mainRun api setEnum arg key = .uncaught msg from by
        simp [mainRun, hres]] at hc
      exact absurd hc (by simp)
  | ok rs =>
    have hne := hA (pyUpper arg) rs hres
    have hemp : rs.isEmpty = false := by
      cases rs with
      | nil => exact absurd rfl hne
      | cons a l => rfl
    cases hbr : buildRows rs with
    | ok rows =>
      rw [show mainRun api setEnum arg key = .table rows from by
        simp [mainRun, hres, hemp, hbr]] at hc
      exact absurd hc (by simp)
    | error e =>
      cases e with
      | valueError msg =>
        rw [show mainRun api setEnum arg key = .valueErrorMsg msg from by
          simp [mainRun, hres, hemp, hbr]] at hc
        exact absurd hc (by simp)
      | systemExit msg =>
        rw [show mainRun api setEnum arg key = .systemExitMsg msg from by
          simp [mainRun, hres, hemp, hbr]] at hc
        exact absurd hc (by simp)
      | attributeError msg =>
        rw [show mainRun api setEnum arg key = .uncaught msg from by
          simp [mainRun, hres, hemp, hbr]] at hc
        exact absurd hc (by simp)

theorem claim_success_results_nonempty_witness :
    mainRun apiAcme pySet "AA:BB:CC:DD:EE:FF" (some "key") ≠ .noResults :=
  (claim_success_results_nonempty apiAcme pySet "AA:BB:CC:DD:EE:FF" (some "key")
    (fun s => pySet_isSetEnum (pySplitComma s))).2

/-- C9: a 200 response whose body lacks `vendorDetails` makes
`make_request` pass `None` to the result constructor, which raises an
`AttributeError` — neither a `ValueError` nor a `SystemExit` — and when
this happens during a run, `__main__` catches nothing and the exception
escapes uncaught. -/
theorem claim_missing_vendorDetails_attributeError (api : Api) (mac : String)
    (key : Option String) (hapi : api mac key = .response 200 ⟨none⟩) :
    make_request api mac key =
      .error (.attributeError "NoneType object has no attribute items") ∧
    (∀ msg, make_request api mac key ≠ .error (.valueError msg)) ∧
    (∀ msg, make_request api mac key ≠ .error (.systemExit msg)) ∧
    (∀ (setEnum : List String → List String) (arg msg : String),
      (get_mac_details api setEnum (pyUpper arg) key).1 = .error (.attributeError msg) →
      mainRun api setEnum arg key = .uncaught msg) := by
  have h1 : make_request api mac key =
      .error (.attributeError "NoneType object has no attribute items") := by
    unfold make_request
    rw [hapi]
    rfl
  refine ⟨h1, ?_, ?_, ?_⟩
  · intro msg hc
    rw [h1] at hc
    exact absurd hc (by simp)
  · intro msg hc
    rw [h1] at hc
    exact absurd hc (by simp)
  · intro setEnum arg msg h
    simp [mainRun, h]

theorem claim_missing_vendorDetails_attributeError_witness :
    make_request api200NoVendor "AA:BB:CC:DD:EE:FF" (some "key") =
      .error (.attributeError "NoneType object has no attribute items") ∧
    mainRun api200NoVendor pySet "AA:BB:CC:DD:EE:FF" (some "key") =
      .uncaught "NoneType object has no attribute items" := by
  have h := claim_missing_vendorDetails_attributeError api200NoVendor
    "AA:BB:CC:DD:EE:FF" (some "key") rfl
  exact ⟨h.1, h.2.2.2 pySet "AA:BB:CC:DD:EE:FF" _ rfl⟩

/-- C10: `validate_mac` checks length and character class independently and
never checks delimiter placement — every 12-character string over
`[0-9A-F:.]` passes even when it contains `:` or `.`, and every
17-character string of only hexadecimal digits passes even though it has no
delimiters. -/
theorem claim_validate_ignores_delimiter_placement :
    (∀ s : String, s.length = 12 → (∀ c ∈ s.data, isHexDelimChar c = true) →
      (∃ c ∈ s.data, c = ':' ∨ c = '.') → validate_mac s = .ok ()) ∧
    (∀ s : String, s.length = 17 → (∀ c ∈ s.data, isUpperHexDigit c = true) →
      validate_mac s = .ok ()) := by
  constructor
  · intro s h12 hcls _
    exact (validate_mac_ok_iff s).mpr ⟨Or.inl h12, hcls⟩
  · intro s h17 hhex
    refine (validate_mac_ok_iff s).mpr ⟨Or.inr h17, fun c hc => ?_⟩
    have hx := of_decide_eq_true (hhex c hc)
    unfold isHexDelimChar
    rcases hx with h | h
    · exact decide_eq_true (Or.inl h)
    · exact decide_eq_true (Or.inr (Or.inl h))

theorem claim_validate_ignores_delimiter_placement_witness :
    validate_mac "::::::::::::" = .ok () ∧
    validate_mac "AAAAAAAAAAAAAAAAA" = .ok () :=
  ⟨claim_validate_ignores_delimiter_placement.1 "::::::::::::"
      rfl (by decide) (by decide),
   claim_validate_ignores_delimiter_placement.2 "AAAAAAAAAAAAAAAAA"
      rfl (by decide)⟩

end MacLookup
